import Mathlib

/-!
Verification of the invoice-generator core against its specification.

The TypeScript sources are embedded shallowly:
* JavaScript numbers are modelled by `JsNum` (NaN, signed infinities, and
  finite values idealised as rationals).
* JavaScript string helpers (`trim`, `split`, `toLowerCase`,
  `parseFloat`) are modelled as explicit functions on `List Char` so that
  everything evaluates by `decide`.
* The React component state of the invoice page (src `saveItem`,
  `deleteItem`) becomes a pure state-transformer on `AppState`.
* The sheet-catalog module's module-level cache becomes an explicit
  `SheetCache` threaded through `fetchProductsFromSheet`; the network is an
  input `FetchOutcome`.
-/

/-- A JavaScript number: NaN, an infinity (`true` = negative), or a finite
value, idealised as a rational. -/
inductive JsNum where
  | nan : JsNum
  | inf : Bool → JsNum
  | num : ℚ → JsNum
deriving DecidableEq

/-- `isNaN(x)` in JavaScript. -/
def JsNum.isNaN : JsNum → Bool
  | .nan => true
  | _ => false

/-- JavaScript truthiness of a number: `NaN` and `0` are falsy. -/
def jsTruthy : JsNum → Bool
  | .nan => false
  | .inf _ => true
  | .num q => !(q = 0)

/-- JavaScript `<` on numbers (`false` whenever NaN is involved). -/
def jsLtB : JsNum → JsNum → Bool
  | .nan, _ => false
  | _, .nan => false
  | .inf true, .inf true => false
  | .inf true, _ => true
  | .inf false, _ => false
  | .num _, .inf false => true
  | .num _, .inf true => false
  | .num a, .num b => a < b

/-- JavaScript `<=` on numbers (`false` whenever NaN is involved). -/
def jsLeB : JsNum → JsNum → Bool
  | .nan, _ => false
  | _, .nan => false
  | .inf true, _ => true
  | .inf false, .inf false => true
  | .inf false, _ => false
  | .num _, .inf false => true
  | .num _, .inf true => false
  | .num a, .num b => a ≤ b

/-- JavaScript addition on numbers. -/
def jsAdd : JsNum → JsNum → JsNum
  | .nan, _ => .nan
  | _, .nan => .nan
  | .inf a, .inf b => if a = b then .inf a else .nan
  | .inf a, .num _ => .inf a
  | .num _, .inf b => .inf b
  | .num a, .num b => .num (a + b)

/-- JavaScript multiplication on numbers (`inf * 0 = NaN`). -/
def jsMul : JsNum → JsNum → JsNum
  | .nan, _ => .nan
  | _, .nan => .nan
  | .inf a, .inf b => .inf (a != b)
  | .inf a, .num q => if q = 0 then .nan else .inf (xor a (decide (q < 0)))
  | .num q, .inf b => if q = 0 then .nan else .inf (xor b (decide (q < 0)))
  | .num a, .num b => .num (a * b)

/-- The whitespace characters recognised by the JS string trimming used here
(the ASCII subset relevant to the embedded inputs). -/
def isJsSpace (c : Char) : Bool :=
  c = ' ' || c = '\t' || c = '\n' || c = '\r'

/-- JavaScript `String.prototype.trim`. -/
def jsTrim (s : String) : String :=
  ⟨((s.data.dropWhile isJsSpace).reverse.dropWhile isJsSpace).reverse⟩

/-- JavaScript `String.prototype.toLowerCase` (ASCII-adequate model). -/
def jsToLower (s : String) : String :=
  ⟨s.data.map Char.toLower⟩

/-- Auxiliary splitter: accumulates the current field (reversed). -/
def splitOnCharAux (sep : Char) : List Char → List Char → List (List Char)
  | [], acc => [acc.reverse]
  | c :: cs, acc =>
    if c = sep then acc.reverse :: splitOnCharAux sep cs []
    else splitOnCharAux sep cs (c :: acc)

/-- JavaScript `String.prototype.split` with a single-character separator;
`"".split(sep)` gives `[""]`, like in JS. -/
def jsSplit (sep : Char) (s : String) : List String :=
  (splitOnCharAux sep s.data []).map String.mk

/-- Numeric value of a digit string (most significant digit first). -/
def natOfDigits (cs : List Char) : ℕ :=
  cs.foldl (fun n c => 10 * n + (c.toNat - '0'.toNat)) 0

/-- Parse an exponent suffix `e`/`E` with optional sign; `none` when the
exponent part is absent or has no digits (JS `parseFloat` then stops at the
longest valid numeric prefix, ignoring the dangling `e`). -/
def parseExpSuffix (cs : List Char) : Option ℤ :=
  match cs with
  | c :: rest =>
    if c = 'e' ∨ c = 'E' then
      match rest with
      | '+' :: ds =>
        let digits := ds.takeWhile Char.isDigit
        if digits = [] then none else some (natOfDigits digits : ℤ)
      | '-' :: ds =>
        let digits := ds.takeWhile Char.isDigit
        if digits = [] then none else some (-(natOfDigits digits : ℤ))
      | ds =>
        let digits := ds.takeWhile Char.isDigit
        if digits = [] then none else some (natOfDigits digits : ℤ)
    else none
  | [] => none

/-- Parse the longest decimal-literal prefix (digits, optional fraction,
optional exponent); `none` when no digits are found at all. -/
def parseDecPrefix (cs : List Char) : Option ℚ :=
  let intPart := cs.takeWhile Char.isDigit
  let rest := cs.dropWhile Char.isDigit
  match rest with
  | '.' :: rest2 =>
    let fracPart := rest2.takeWhile Char.isDigit
    if intPart = [] ∧ fracPart = [] then none
    else
      let base : ℚ := (natOfDigits intPart : ℚ) +
        (natOfDigits fracPart : ℚ) / (10 : ℚ) ^ fracPart.length
      let rest3 := rest2.dropWhile Char.isDigit
      match parseExpSuffix rest3 with
      | some e => some (base * (10 : ℚ) ^ e)
      | none => some base
  | _ =>
    if intPart = [] then none
    else
      let base : ℚ := (natOfDigits intPart : ℚ)
      match parseExpSuffix rest with
      | some e => some (base * (10 : ℚ) ^ e)
      | none => some base

/-- JavaScript `parseFloat`: leading whitespace, optional sign, then either
the literal `Infinity` or the longest decimal-literal prefix; `NaN` when
nothing numeric is found. -/
def jsParseFloat (s : String) : JsNum :=
  let cs := s.data.dropWhile isJsSpace
  match cs with
  | '-' :: t =>
    if "Infinity".data.isPrefixOf t then .inf true
    else match parseDecPrefix t with
      | some q => .num (-q)
      | none => .nan
  | '+' :: t =>
    if "Infinity".data.isPrefixOf t then .inf false
    else match parseDecPrefix t with
      | some q => .num q
      | none => .nan
  | t =>
    if "Infinity".data.isPrefixOf t then .inf false
    else match parseDecPrefix t with
      | some q => .num q
      | none => .nan

/-! ### Data model (`@/types`, fields reconstructed from their uses) -/

/-- A line item: identity plus snapshots of name/price/unit and a quantity. -/
structure LineItem where
  id : String
  productName : String
  unitPrice : JsNum
  quantity : JsNum
  unit : String
deriving DecidableEq

/-- A catalog product; `fromSheet = true` marks remote (sheet) origin,
`false` models the TS `fromSheet` field being absent or `false`. -/
structure Product where
  id : String
  name : String
  price : JsNum
  unit : String
  defaultQuantity : Option JsNum
  usageCount : ℕ
  fromSheet : Bool
deriving DecidableEq

/-- A customer record. -/
structure Customer where
  id : String
  name : String
  phone : Option String
  address : Option String
  usageCount : ℕ
  lastUsed : ℕ
deriving DecidableEq

/-- An invoice (the generated-PDF payload is irrelevant to the claims and
omitted). -/
structure Invoice where
  id : String
  customerId : String
  customerName : String
  customerPhone : Option String
  customerAddress : Option String
  lineItems : List LineItem
  subtotal : JsNum
  total : JsNum
  createdAt : ℕ
  isDraft : Bool
deriving DecidableEq

/-! ### `src/lib/utils.ts` -/

/-- `calculateSubtotal`: `lineItems.reduce((sum, item) => sum +
item.unitPrice * item.quantity, 0)`. -/
def calculateSubtotal (lineItems : List LineItem) : JsNum :=
  lineItems.foldl (fun sum item => jsAdd sum (jsMul item.unitPrice item.quantity))
    (JsNum.num 0)

/-- `calculateTotal`: for v1, total = subtotal. -/
def calculateTotal (lineItems : List LineItem) : JsNum :=
  calculateSubtotal lineItems

/-! ### `src/lib/storage.ts` (part_003): products and customers -/

/-- `incrementProductUsage`: `products.find(p => p.id === productId)` is
mutated in place (first match only) and the list saved; absent id means no
change. -/
def incrementProductUsage (productId : String) : List Product → List Product
  | [] => []
  | p :: ps =>
    if p.id = productId then { p with usageCount := p.usageCount + 1 } :: ps
    else p :: incrementProductUsage productId ps

/-- `saveProduct`: replace the entry with the same id, else append. -/
def saveProduct (product : Product) : List Product → List Product
  | [] => [product]
  | p :: ps =>
    if p.id = product.id then product :: ps
    else p :: saveProduct product ps

/-- The comparator of `getMostFrequentCustomers`:
`(a, b) => b.usageCount - a.usageCount || b.lastUsed - a.lastUsed`. -/
def customerCompare (a b : Customer) : ℤ :=
  if (b.usageCount : ℤ) - (a.usageCount : ℤ) ≠ 0 then
    (b.usageCount : ℤ) - (a.usageCount : ℤ)
  else (b.lastUsed : ℤ) - (a.lastUsed : ℤ)

/-- `a` may be placed before `b` by the comparator. -/
def customerLe (a b : Customer) : Prop := customerCompare a b ≤ 0

instance : DecidableRel customerLe :=
  fun a b => inferInstanceAs (Decidable (customerCompare a b ≤ 0))

/-- `getMostFrequentCustomers(limit = 5)`: sort by the comparator and take
`limit` items. JS `Array.prototype.sort` is a stable sort consistent with
the comparator, modelled by `List.insertionSort` (also stable). -/
def getMostFrequentCustomers (limit : ℕ) (customers : List Customer) : List Customer :=
  (List.insertionSort customerLe customers).take limit

/-! ### `src/lib/sheets.ts` (part_002) -/

/-- `p.trim().replace(/^"|"/g, '')`: the regex matches every double-quote
character (the second alternative is unanchored), so all of them are
removed. -/
def stripQuotes (s : String) : String :=
  ⟨s.data.filter (fun c => !(c = '"'))⟩

/-- One data row of the sheet CSV, as accepted by `parseCSV`:
`(name, price, lower-cased unit, default quantity)`. -/
def csvRowProduct (line : String) : Option (String × JsNum × String × Option JsNum) :=
  match (jsSplit ',' line).map (fun p => stripQuotes (jsTrim p)) with
  | name :: priceStr :: unit :: rest =>
    let price := jsParseFloat priceStr
    if name ≠ "" ∧ price.isNaN = false ∧ unit ≠ "" then
      let defaultQuantity : Option JsNum :=
        match rest with
        | defaultQtyStr :: _ =>
          if defaultQtyStr = "" then none else some (jsParseFloat defaultQtyStr)
        | [] => none
      let dq : Option JsNum :=
        match defaultQuantity with
        | some v => if jsTruthy v && !v.isNaN then some v else none
        | none => none
      some (name, price, jsToLower unit, dq)
    else none
  | _ => none

/-- The loop body of `parseCSV`; `k` counts the products pushed so far and
indexes the fresh-id supply `ig` (modelling `generateId()`). -/
def parseCSVAux (ig : ℕ → String) : ℕ → List String → List Product
  | _, [] => []
  | k, rawLine :: rest =>
    let line := jsTrim rawLine
    if line = "" then parseCSVAux ig k rest
    else
      match (jsSplit ',' line).map (fun p => stripQuotes (jsTrim p)) with
      | name :: priceStr :: unit :: restFields =>
        let price := jsParseFloat priceStr
        if name ≠ "" ∧ price.isNaN = false ∧ unit ≠ "" then
          let defaultQuantity : Option JsNum :=
            match restFields with
            | defaultQtyStr :: _ =>
              if defaultQtyStr = "" then none else some (jsParseFloat defaultQtyStr)
            | [] => none
          ⟨ig k, name, price, jsToLower unit,
            (match defaultQuantity with
             | some v => if jsTruthy v && !v.isNaN then some v else none
             | none => none),
            0, true⟩ :: parseCSVAux ig (k + 1) rest
        else parseCSVAux ig k rest
      | _ => parseCSVAux ig k rest

/-- `parseCSV`: trim the text, split on newlines, skip the header row, and
turn each remaining well-formed row into a sheet product. -/
def parseCSV (ig : ℕ → String) (csvText : String) : List Product :=
  parseCSVAux ig 0 ((jsSplit '\n' (jsTrim csvText)).drop 1)

/-- The module-level cache of `sheets.ts`: `cachedProducts` and
`lastFetchTime` (the localStorage copy always mirrors these). -/
structure SheetCache where
  cachedProducts : Option (List Product)
  lastFetchTime : ℕ
deriving DecidableEq

/-- `CACHE_DURATION = 5 * 60 * 1000`. -/
def CACHE_DURATION : ℕ := 5 * 60 * 1000

/-- The outcome the network would produce for this call: a CSV body, a
non-2xx response (`!response.ok`), or a thrown fetch error. -/
inductive FetchOutcome where
  | success (csvText : String)
  | httpError
  | networkError
deriving DecidableEq

/-- `true` for the two failure outcomes. -/
def FetchOutcome.isFailure : FetchOutcome → Bool
  | .success _ => false
  | _ => true

/-- The fetch-and-cache path of `fetchProductsFromSheet`, reached when the
cache check fails: empty sheet id returns `[]`; a successful fetch parses,
caches and returns the products; a failure returns `cachedProducts || []`. -/
def sheetFetchMiss (ig : ℕ → String) (sheetIdToUse : String) (now : ℕ)
    (outcome : FetchOutcome) (st : SheetCache) : List Product × SheetCache :=
  if sheetIdToUse = "" then ([], st)
  else
    match outcome with
    | .success csvText =>
      let products := parseCSV ig csvText
      (products, ⟨some products, now⟩)
    | _ => (st.cachedProducts.getD [], st)

/-- `fetchProductsFromSheet(sheetId?)`: uses `sheetId || SHEET_ID` and
returns the cached list when `cachedProducts && Date.now() - lastFetchTime <
CACHE_DURATION && SHEET_ID_TO_USE` — the id the cache was fetched for is
neither stored nor compared. -/
def fetchProductsFromSheet (ig : ℕ → String) (sheetId : Option String)
    (envSheetId : String) (now : ℕ) (outcome : FetchOutcome) (st : SheetCache) :
    List Product × SheetCache :=
  let sheetIdToUse :=
    match sheetId with
    | some s => if s = "" then envSheetId else s
    | none => envSheetId
  match st.cachedProducts with
  | some cached =>
    if now - st.lastFetchTime < CACHE_DURATION ∧ sheetIdToUse ≠ "" then (cached, st)
    else sheetFetchMiss ig sheetIdToUse now outcome st
  | none => sheetFetchMiss ig sheetIdToUse now outcome st

/-! ### `src/lib/storage.ts` (part_003): `getAllProducts` -/

/-- The persisted store slice used by `getAllProducts`. -/
structure Store where
  products : List Product
  cache : SheetCache
deriving DecidableEq

/-- The merge inside `getAllProducts`: sheet products first, then manual
products that are not sheet-origin and whose lower-cased name is not among
the sheet products' lower-cased names (the TS `Set` becomes a list). -/
def mergeProducts (sheetProducts manualProducts : List Product) : List Product :=
  let sheetProductNames := sheetProducts.map (fun p => jsToLower p.name)
  sheetProducts ++ manualProducts.filter
    (fun p => !p.fromSheet && !(sheetProductNames.contains (jsToLower p.name)))

/-- `getAllProducts`: read the manual products, call
`fetchProductsFromSheet()` (no argument, so the env sheet id is used), and
merge; only the cache slice of the store is ever written. -/
def getAllProducts (ig : ℕ → String) (envSheetId : String) (now : ℕ)
    (outcome : FetchOutcome) (st : Store) : List Product × Store :=
  let manualProducts := st.products
  let res := fetchProductsFromSheet ig none envSheetId now outcome st.cache
  (mergeProducts res.1 manualProducts, { st with cache := res.2 })

/-! ### The invoice page (part_001): `saveItem` and `deleteItem` -/

/-- The screen-identifier state variable of the page component. -/
inductive Screen where
  | customerSelection
  | items
  | addItem
  | share
  | settings
deriving DecidableEq

/-- The add/edit-item form state: `editingItem`, `itemProductName`,
`itemPrice`, `itemQuantity`, `itemUnit`. -/
structure ItemForm where
  editingItem : Option LineItem
  itemProductName : String
  itemPrice : String
  itemQuantity : String
  itemUnit : String
deriving DecidableEq

/-- The component state relevant to the claims: the in-memory invoice and
screen, the loaded product list (`products`, sheet + manual), the persisted
products store, and the persisted draft (written by the auto-save effect on
every invoice change). -/
structure AppState where
  invoice : Option Invoice
  screen : Screen
  productsMem : List Product
  productsStore : List Product
  draftStore : Option Invoice
deriving DecidableEq

/-- `saveItem`: guard the inputs, then either replace the line item being
edited or append a fresh one; on append, bump the usage counter of a
catalog product of the same (case-insensitive) name or save a new manual
product.  `newItemId`/`newProductId` model the two possible `generateId()`
calls.  The asynchronous `getAllProducts().then(setProducts)` reload fired
by the add branch resolves after `saveItem` returns and is outside this
state (the claims under verification do not depend on `productsMem`
afterwards). -/
def saveItem (form : ItemForm) (newItemId newProductId : String)
    (st : AppState) : AppState :=
  match st.invoice with
  | none => st
  | some invoice =>
    if jsTrim form.itemProductName = "" then st
    else
      let price := jsParseFloat form.itemPrice
      let quantity := jsParseFloat form.itemQuantity
      if price.isNaN || jsLtB price (JsNum.num 0) ||
          quantity.isNaN || jsLeB quantity (JsNum.num 0) then st
      else
        match form.editingItem with
        | some editingItem =>
          let updatedLineItems := invoice.lineItems.map (fun item =>
            if item.id = editingItem.id then
              { item with
                productName := jsTrim form.itemProductName
                unitPrice := price
                quantity := quantity
                unit := form.itemUnit }
            else item)
          let invoice2 := { invoice with
            lineItems := updatedLineItems
            subtotal := calculateSubtotal updatedLineItems
            total := calculateTotal updatedLineItems }
          { st with
            invoice := some invoice2
            draftStore := some invoice2
            screen := Screen.items }
        | none =>
          let lineItem : LineItem :=
            ⟨newItemId, jsTrim form.itemProductName, price, quantity, form.itemUnit⟩
          let updatedLineItems := invoice.lineItems ++ [lineItem]
          let invoice2 := { invoice with
            lineItems := updatedLineItems
            subtotal := calculateSubtotal updatedLineItems
            total := calculateTotal updatedLineItems }
          let productsStore2 :=
            match st.productsMem.find? (fun p =>
                jsToLower p.name = jsToLower (jsTrim form.itemProductName)) with
            | some existingProduct => incrementProductUsage existingProduct.id st.productsStore
            | none =>
              saveProduct
                ⟨newProductId, jsTrim form.itemProductName, price, form.itemUnit, none, 1, false⟩
                st.productsStore
          { st with
            invoice := some invoice2
            draftStore := some invoice2
            productsStore := productsStore2
            screen := Screen.items }

/-- `deleteItem`: remove the line item by id and recompute the totals. -/
def deleteItem (itemId : String) (st : AppState) : AppState :=
  match st.invoice with
  | none => st
  | some invoice =>
    let updatedLineItems := invoice.lineItems.filter (fun item => !(item.id = itemId))
    let invoice2 := { invoice with
      lineItems := updatedLineItems
      subtotal := calculateSubtotal updatedLineItems
      total := calculateTotal updatedLineItems }
    { st with invoice := some invoice2, draftStore := some invoice2 }

/-- One user operation on the draft's line items. -/
inductive DraftOp where
  | save (form : ItemForm) (newItemId newProductId : String)
  | delete (itemId : String)

/-- Apply one operation to the component state. -/
def applyDraftOp (st : AppState) : DraftOp → AppState
  | .save form newItemId newProductId => saveItem form newItemId newProductId st
  | .delete itemId => deleteItem itemId st

/-- Whether the operation reaches its `setInvoice` call (it is not rejected
by a guard) when applied in state `st`. -/
def draftOpSucceeds (st : AppState) : DraftOp → Bool
  | .save form _ _ =>
    st.invoice.isSome && !(jsTrim form.itemProductName = "") &&
      !((jsParseFloat form.itemPrice).isNaN ||
        jsLtB (jsParseFloat form.itemPrice) (JsNum.num 0) ||
        (jsParseFloat form.itemQuantity).isNaN ||
        jsLeB (jsParseFloat form.itemQuantity) (JsNum.num 0))
  | .delete _ => st.invoice.isSome

/-- The invariant of claim C1 for the component state. -/
def totalsInvariant (st : AppState) : Prop :=
  ∀ inv, st.invoice = some inv →
    inv.subtotal = inv.total ∧ inv.subtotal = calculateSubtotal inv.lineItems

/-! ### Spec-side definitions and concrete inputs used by the claims -/

/-- Attach fresh sheet-product ids, numbering from `k`. -/
def attachSheetIds (ig : ℕ → String) : ℕ → List (String × JsNum × String × Option JsNum) → List Product
  | _, [] => []
  | k, t :: ts => ⟨ig k, t.1, t.2.1, t.2.2.1, t.2.2.2, 0, true⟩ :: attachSheetIds ig (k + 1) ts

/-- Spec-shaped description of `parseCSV`: drop the header row, drop blank
rows, and keep exactly the rows accepted by `csvRowProduct`. -/
def parseCSVSpec (csvText : String) : List (String × JsNum × String × Option JsNum) :=
  ((jsSplit '\n' (jsTrim csvText)).drop 1).filterMap (fun rawLine =>
    if jsTrim rawLine = "" then none else csvRowProduct (jsTrim rawLine))

/-- A fixed fresh-id supply for concrete runs. -/
def igDefault : ℕ → String := fun _ => "generated"

/-- An empty draft invoice, as synthesized on first run. -/
def emptyDraft : Invoice :=
  ⟨"inv1", "", "", none, none, [], JsNum.num 0, JsNum.num 0, 0, true⟩

/-- A component state on the add-item screen with an empty draft. -/
def baseState : AppState :=
  ⟨some emptyDraft, Screen.addItem, [], [], some emptyDraft⟩

/-- Add-item form whose price field reads `Infinity`. -/
def infinityForm : ItemForm := ⟨none, "x", "Infinity", "1", "kg"⟩

/-- Add-item form whose price field reads `-5`. -/
def negPriceForm : ItemForm := ⟨none, "x", "-5", "1", "kg"⟩

/-! ### C1: the totals invariant -/

/-- **C1.** After any sequence of `saveItem`/`deleteItem` operations, the
state reached by an operation that passes its guards (reaches `setInvoice`)
has `subtotal = total` and `subtotal = calculateSubtotal lineItems` — i.e.
both derived fields equal the sum of `unitPrice × quantity` over the line
items.  Quantified over every start state and sequence, this gives the
invariant after each successful operation of any run. -/
theorem claim1_totals_invariant (st : AppState) (ops : List DraftOp) (op : DraftOp)
    (hsucc : draftOpSucceeds (List.foldl applyDraftOp st ops) op = true) :
    totalsInvariant (applyDraftOp (List.foldl applyDraftOp st ops) op) := by
  set s := List.foldl applyDraftOp st ops with hs
  clear hs
  cases op with
  | save form newItemId newProductId =>
    simp only [draftOpSucceeds, Bool.and_eq_true, Bool.not_eq_true',
      Option.isSome_iff_exists, decide_eq_false_iff_not] at hsucc
    obtain ⟨⟨⟨inv, hinv⟩, hname⟩, hguard⟩ := hsucc
    simp only [applyDraftOp, saveItem, hinv]
    rw [if_neg hname, if_neg (by simp [hguard])]
    cases hedit : form.editingItem with
    | some editing =>
      intro inv' hinv'
      simp only [Option.some.injEq] at hinv'
      subst hinv'
      exact ⟨rfl, rfl⟩
    | none =>
      intro inv' hinv'
      simp only [Option.some.injEq] at hinv'
      subst hinv'
      exact ⟨rfl, rfl⟩
  | delete itemId =>
    simp only [draftOpSucceeds, Option.isSome_iff_exists] at hsucc
    obtain ⟨inv, hinv⟩ := hsucc
    simp only [applyDraftOp, deleteItem, hinv]
    intro inv' hinv'
    simp only [Option.some.injEq] at hinv'
    subst hinv'
    exact ⟨rfl, rfl⟩

/-- Witness for C1: adding `Paneer, 500 × 1` to the empty draft succeeds and
the resulting state satisfies the invariant. -/
theorem claim1_totals_invariant_witness :
    totalsInvariant (applyDraftOp (List.foldl applyDraftOp baseState [])
      (DraftOp.save ⟨none, "Paneer", "500", "1", "kg"⟩ "li1" "pr1")) :=
  claim1_totals_invariant baseState [] (DraftOp.save ⟨none, "Paneer", "500", "1", "kg"⟩ "li1" "pr1")
    (by decide)

/-! ### C10: `incrementProductUsage` frame -/

/-- **C10.** `incrementProductUsage id` bumps the usage counter of the
(first) product carrying `id` by exactly one, keeping its other fields and
every other product intact, and leaves the list entirely unchanged when no
product carries `id`. -/
theorem claim10_incrementProductUsage :
    (∀ (productId : String) (pre post : List Product) (p : Product),
      (∀ q ∈ pre, q.id ≠ productId) → p.id = productId →
      incrementProductUsage productId (pre ++ p :: post) =
        pre ++ { p with usageCount := p.usageCount + 1 } :: post) ∧
    (∀ (productId : String) (ps : List Product),
      (∀ q ∈ ps, q.id ≠ productId) →
      incrementProductUsage productId ps = ps) := by
  constructor
  · intro productId pre post p hpre hp
    induction pre with
    | nil => simp [incrementProductUsage, hp]
    | cons q qs ih =>
      have hq : q.id ≠ productId := hpre q (List.mem_cons_self q qs)
      simp only [List.cons_append, incrementProductUsage, if_neg hq]
      exact congrArg (q :: ·) (ih (fun x hx => hpre x (List.mem_cons_of_mem q hx)))
  · intro productId ps hps
    induction ps with
    | nil => rfl
    | cons q qs ih =>
      have hq : q.id ≠ productId := hps q (List.mem_cons_self q qs)
      simp only [incrementProductUsage, if_neg hq]
      exact congrArg (q :: ·) (ih (fun x hx => hps x (List.mem_cons_of_mem q hx)))

/-- Witness for C10: incrementing `idB` in a two-product store bumps only
the second product's counter. -/
theorem claim10_incrementProductUsage_witness :
    incrementProductUsage "idB"
        ([⟨"idA", "Apples", JsNum.num 10, "kg", none, 1, false⟩] ++
          ⟨"idB", "Bread", JsNum.num 20, "piece", none, 5, false⟩ :: []) =
      [⟨"idA", "Apples", JsNum.num 10, "kg", none, 1, false⟩] ++
        ⟨"idB", "Bread", JsNum.num 20, "piece", none, 6, false⟩ :: [] :=
  claim10_incrementProductUsage.1 "idB"
    [⟨"idA", "Apples", JsNum.num 10, "kg", none, 1, false⟩] []
    ⟨"idB", "Bread", JsNum.num 20, "piece", none, 5, false⟩ (by decide) rfl

/-! ### C9: `getMostFrequentCustomers` -/

/-- The comparator is total. -/
theorem customerLe_total (a b : Customer) : customerLe a b ∨ customerLe b a := by
  unfold customerLe customerCompare
  by_cases h : (b.usageCount : ℤ) - (a.usageCount : ℤ) ≠ 0
  · have h' : (a.usageCount : ℤ) - (b.usageCount : ℤ) ≠ 0 := by omega
    rw [if_pos h, if_pos h']
    omega
  · have h' : ¬((a.usageCount : ℤ) - (b.usageCount : ℤ) ≠ 0) := by omega
    rw [if_neg h, if_neg h']
    omega

/-- The comparator is transitive. -/
theorem customerLe_trans (a b c : Customer) :
    customerLe a b → customerLe b c → customerLe a c := by
  unfold customerLe customerCompare
  split_ifs <;> omega

instance : IsTotal Customer customerLe := ⟨customerLe_total⟩

instance : IsTrans Customer customerLe := ⟨customerLe_trans⟩

/-- The comparator ordering implies the descending usage/recency ordering. -/
theorem customerLe_imp_desc (a b : Customer) (h : customerLe a b) :
    b.usageCount < a.usageCount ∨
      (a.usageCount = b.usageCount ∧ b.lastUsed ≤ a.lastUsed) := by
  unfold customerLe customerCompare at h
  split_ifs at h <;> omega

/-- **C9.** `getMostFrequentCustomers` with its default limit returns at
most 5 customers, sorted by descending `usageCount` with ties broken by
descending `lastUsed`. -/
theorem claim9_getMostFrequentCustomers (customers : List Customer) :
    (getMostFrequentCustomers 5 customers).length ≤ 5 ∧
    List.Sorted (fun a b : Customer =>
        b.usageCount < a.usageCount ∨
          (a.usageCount = b.usageCount ∧ b.lastUsed ≤ a.lastUsed))
      (getMostFrequentCustomers 5 customers) := by
  constructor
  · simp [getMostFrequentCustomers]
  · have hs : List.Sorted customerLe (List.insertionSort customerLe customers) :=
      List.sorted_insertionSort customerLe customers
    have hd := List.Pairwise.imp₂ (fun a b h _ => customerLe_imp_desc a b h) hs hs
    exact List.Pairwise.sublist (List.take_sublist 5 _) hd

/-! ### C5: the merge in `getAllProducts` -/

/-- Not being contained among the lower-cased sheet names equals differing
from every sheet product's lower-cased name. -/
theorem not_contains_names (sheet : List Product) (x : String) :
    (!((sheet.map (fun p => jsToLower p.name)).contains x)) =
      sheet.all (fun r => !(x == jsToLower r.name)) := by
  induction sheet with
  | nil => rfl
  | cons a t ih =>
    rw [Bool.eq_iff_iff]
    simp_all

/-- The remote product used in the Milk collision scenario. -/
def remoteMilk : Product := ⟨"sheet1", "Milk", JsNum.num 50, "liter", none, 0, true⟩

/-- The locally entered product used in the Milk collision scenario. -/
def localMilk : Product := ⟨"local1", "milk", JsNum.num 45, "liter", none, 3, false⟩

/-- **C5.** The merged list is the remote products, in order, followed by
exactly those locally entered (`fromSheet = false`) stored products whose
lower-cased name differs from every remote product's lower-cased name;
`getAllProducts` computes exactly this merge and never writes the products
store; and remote `Milk` vs local `milk` merges to just the remote entry. -/
theorem claim5_merge (sheetProducts manualProducts : List Product) (ig : ℕ → String)
    (envSheetId : String) (now : ℕ) (outcome : FetchOutcome) (st : Store) :
    mergeProducts sheetProducts manualProducts =
      sheetProducts ++ manualProducts.filter (fun p =>
        !p.fromSheet &&
          sheetProducts.all (fun r => !(jsToLower p.name == jsToLower r.name))) ∧
    (getAllProducts ig envSheetId now outcome st).1 =
      mergeProducts (fetchProductsFromSheet ig none envSheetId now outcome st.cache).1
        st.products ∧
    (getAllProducts ig envSheetId now outcome st).2.products = st.products ∧
    mergeProducts [remoteMilk] [localMilk] = [remoteMilk] := by
  refine ⟨?_, rfl, rfl, by decide⟩
  unfold mergeProducts
  refine congrArg (sheetProducts ++ ·) (List.filter_congr fun p _ => ?_)
  rw [not_contains_names]

/-! ### C6: fetch failure never loses the caller a list -/

/-- **C6.** With a configured source, any failing fetch outcome (non-2xx or
a thrown network error) still returns the last cached remote list (empty
when none) merged with the stored products, and leaves the store untouched;
in the embedding `getAllProducts` is total, so no error escapes. -/
theorem claim6_fetch_failure (ig : ℕ → String) (envSheetId : String) (now : ℕ)
    (outcome : FetchOutcome) (st : Store) (henv : envSheetId ≠ "")
    (hfail : outcome.isFailure = true) :
    (getAllProducts ig envSheetId now outcome st).1 =
      mergeProducts (st.cache.cachedProducts.getD []) st.products ∧
    (getAllProducts ig envSheetId now outcome st).2 = st := by
  have hmiss : sheetFetchMiss ig envSheetId now outcome st.cache =
      (st.cache.cachedProducts.getD [], st.cache) := by
    unfold sheetFetchMiss
    rw [if_neg henv]
    cases outcome with
    | success csvText => simp [FetchOutcome.isFailure] at hfail
    | httpError => rfl
    | networkError => rfl
  have hfetch : fetchProductsFromSheet ig none envSheetId now outcome st.cache =
      (st.cache.cachedProducts.getD [], st.cache) := by
    cases hc : st.cache.cachedProducts with
    | some cached =>
      simp only [fetchProductsFromSheet, hc]
      by_cases hfresh : now - st.cache.lastFetchTime < CACHE_DURATION ∧ envSheetId ≠ ""
      · rw [if_pos hfresh]
        rfl
      · rw [if_neg hfresh, hmiss, hc]
    | none =>
      simp only [fetchProductsFromSheet, hc]
      rw [hmiss, hc]
  unfold getAllProducts
  rw [hfetch]
  exact ⟨rfl, rfl⟩

/-- Witness for C6: an HTTP 500 with empty cache and empty local store still
yields a (here empty) merged list and leaves the store unchanged. -/
theorem claim6_fetch_failure_witness :
    (getAllProducts igDefault "sheetS" 0 FetchOutcome.httpError ⟨[], ⟨none, 0⟩⟩).1 =
      mergeProducts ((⟨[], ⟨none, 0⟩⟩ : Store).cache.cachedProducts.getD []) [] ∧
    (getAllProducts igDefault "sheetS" 0 FetchOutcome.httpError ⟨[], ⟨none, 0⟩⟩).2 =
      ⟨[], ⟨none, 0⟩⟩ :=
  claim6_fetch_failure igDefault "sheetS" 0 FetchOutcome.httpError ⟨[], ⟨none, 0⟩⟩
    (by decide) rfl

/-! ### C7: no source configured -/

/-- **C7 (amended).** With no configured source, `getAllProducts` returns
exactly the locally entered (`fromSheet = false`) stored products, in
stored order — it does not sort them by usage count — and leaves the store
unchanged. -/
theorem claim7_no_source (ig : ℕ → String) (now : ℕ) (outcome : FetchOutcome)
    (st : Store) :
    (getAllProducts ig "" now outcome st).1 =
      st.products.filter (fun p => !p.fromSheet) ∧
    (getAllProducts ig "" now outcome st).2 = st := by
  have hfetch : fetchProductsFromSheet ig none "" now outcome st.cache =
      ([], st.cache) := by
    cases hc : st.cache.cachedProducts with
    | some cached =>
      simp only [fetchProductsFromSheet, hc]
      rw [if_neg (by simp)]
      unfold sheetFetchMiss
      rw [if_pos rfl]
    | none =>
      simp only [fetchProductsFromSheet, hc]
      unfold sheetFetchMiss
      rw [if_pos rfl]
  unfold getAllProducts
  rw [hfetch]
  refine ⟨?_, rfl⟩
  show mergeProducts [] st.products = _
  unfold mergeProducts
  simp only [List.map_nil, List.nil_append]
  exact List.filter_congr fun p _ => by simp

/-- A store holding two locally entered products in ascending usage order. -/
def prodApples : Product := ⟨"idA", "Apples", JsNum.num 10, "kg", none, 1, false⟩

/-- The second, more used, locally entered product. -/
def prodBread : Product := ⟨"idB", "Bread", JsNum.num 20, "piece", none, 5, false⟩

/-- The store used in the C7 counterexample. -/
def noSheetStore : Store := ⟨[prodApples, prodBread], ⟨none, 0⟩⟩

/-- **C7 counterexample.** With no source configured and a store holding
`Apples` (usage 1) before `Bread` (usage 5), `getAllProducts` returns them
in stored order `[Apples, Bread]`, which is not sorted by descending usage
count — contradicting the claim's sortedness part. -/
theorem claim7_counterexample :
    (getAllProducts igDefault "" 0 FetchOutcome.networkError noSheetStore).1 =
      [prodApples, prodBread] ∧
    ¬ List.Sorted (fun a b : Product => b.usageCount ≤ a.usageCount)
        (getAllProducts igDefault "" 0 FetchOutcome.networkError noSheetStore).1 := by
  have h1 : (getAllProducts igDefault "" 0 FetchOutcome.networkError noSheetStore).1 =
      [prodApples, prodBread] := by decide
  refine ⟨h1, ?_⟩
  rw [h1]
  intro h
  have hrel := List.rel_of_sorted_cons h prodBread (by simp)
  exact absurd hrel (by decide)

/-! ### C2: the cache check ignores the source identifier -/

/-- CSV body fetched from source `sheetA`. -/
def milkCsv : String := "Product Name,Price,Unit\nMilk,50,liter"

/-- CSV body that source `sheetB` would serve. -/
def creamCsv : String := "Product Name,Price,Unit\nCream,60,piece"

/-- The single product of `milkCsv`, as parsed. -/
def sheetMilk : Product := ⟨"generated", "Milk", JsNum.num 50, "liter", none, 0, true⟩

/-- **C2.** Evaluating the code at the failing input: a first call fetches
`milkCsv` for source `sheetA` at time 0 and caches it; a second call at
time 1000 (well under the TTL) configured for the different source `sheetB`
— whose fetch would deliver `creamCsv` — returns the `sheetA` products from
the cache, because the cache check tests only that some source id is
configured, never that it matches the one the cache was fetched for. -/
theorem claim2_cache_ignores_source :
    (fetchProductsFromSheet igDefault none "sheetA" 0 (FetchOutcome.success milkCsv)
        ⟨none, 0⟩).1 = [sheetMilk] ∧
    (fetchProductsFromSheet igDefault none "sheetB" 1000 (FetchOutcome.success creamCsv)
        (fetchProductsFromSheet igDefault none "sheetA" 0 (FetchOutcome.success milkCsv)
          ⟨none, 0⟩).2).1 = [sheetMilk] := by
  constructor
  · decide
  · decide

/-! ### C3: `parseCSV` row handling -/

/-- One loop step of `parseCSV` in terms of `csvRowProduct`. -/
theorem parseCSVAux_cons (ig : ℕ → String) (k : ℕ) (rawLine : String)
    (rest : List String) :
    parseCSVAux ig k (rawLine :: rest) =
      match (if jsTrim rawLine = "" then none else csvRowProduct (jsTrim rawLine)) with
      | some t =>
        (⟨ig k, t.1, t.2.1, t.2.2.1, t.2.2.2, 0, true⟩ : Product) ::
          parseCSVAux ig (k + 1) rest
      | none => parseCSVAux ig k rest := by
  by_cases hempty : jsTrim rawLine = ""
  · simp [parseCSVAux, hempty]
  · rw [if_neg hempty]
    simp only [parseCSVAux]
    unfold csvRowProduct
    rw [if_neg hempty]
    cases hparts : (jsSplit ',' (jsTrim rawLine)).map (fun p => stripQuotes (jsTrim p)) with
    | nil => rfl
    | cons name t1 =>
      cases t1 with
      | nil => rfl
      | cons priceStr t2 =>
        cases t2 with
        | nil => rfl
        | cons unit restFields =>
          by_cases hcond : name ≠ "" ∧ (jsParseFloat priceStr).isNaN = false ∧ unit ≠ ""
          · simp [hcond]
          · simp [hcond]

/-- The loop of `parseCSV` equals the spec-shaped row description, for any
starting id counter. -/
theorem parseCSVAux_eq_spec (ig : ℕ → String) (lines : List String) :
    ∀ k, parseCSVAux ig k lines =
      attachSheetIds ig k (lines.filterMap (fun rawLine =>
        if jsTrim rawLine = "" then none else csvRowProduct (jsTrim rawLine))) := by
  induction lines with
  | nil => intro k; rfl
  | cons rawLine rest ih =>
    intro k
    rw [parseCSVAux_cons, List.filterMap_cons]
    cases hrow : (if jsTrim rawLine = "" then none else csvRowProduct (jsTrim rawLine)) with
    | none => simp [ih k]
    | some t => simp [attachSheetIds, ih (k + 1)]

/-- **C3 (amended).** `parseCSV` skips the header row; each later row is
kept iff, after splitting on commas and stripping quotes/whitespace, it has
at least three fields with a non-empty name, a price whose `parseFloat` is
not NaN (negative and infinite prices are accepted — there is no
non-negativity or finiteness check), and a non-empty unit; rejected rows
are dropped independently of the others; a fourth field that is falsy or
parses to NaN or 0 yields no default quantity rather than rejecting the
row; units are lower-cased (all of this is `csvRowProduct`). -/
theorem claim3_parseCSV_rows (ig : ℕ → String) (csvText : String) :
    parseCSV ig csvText = attachSheetIds ig 0 (parseCSVSpec csvText) :=
  parseCSVAux_eq_spec ig ((jsSplit '\n' (jsTrim csvText)).drop 1) 0

/-- **C3 counterexample.** The row `X,-5,kg` has a price that parses to the
negative number `-5`, which is not a non-negative finite number, yet
`parseCSV` keeps the row — contradicting the claim's acceptance condition. -/
theorem claim3_counterexample :
    (parseCSV igDefault "Product Name,Price,Unit\nX,-5,kg").map
        (fun p => (p.name, p.price, p.unit)) =
      [("X", JsNum.num (-5), "kg")] := by
  decide

/-! ### C4: AddLineItem rejection -/

/-- **C4 (amended).** In add mode (`editingItem = none`), `saveItem`
rejects — leaving the whole state unchanged: no line item, no subtotal or
total change, no catalog write, no screen transition — exactly when the
trimmed name is empty, the price parses to NaN or to a value `< 0`, or the
quantity parses to NaN or to a value `≤ 0`.  (Non-finite values pass these
checks: see the counterexample.) -/
theorem claim4_addLineItem_reject (st : AppState) (form : ItemForm)
    (newItemId newProductId : String) (_hmode : form.editingItem = none)
    (hrej : jsTrim form.itemProductName = "" ∨
      (jsParseFloat form.itemPrice).isNaN = true ∨
      jsLtB (jsParseFloat form.itemPrice) (JsNum.num 0) = true ∨
      (jsParseFloat form.itemQuantity).isNaN = true ∨
      jsLeB (jsParseFloat form.itemQuantity) (JsNum.num 0) = true) :
    saveItem form newItemId newProductId st = st := by
  cases hinv : st.invoice with
  | none => simp only [saveItem, hinv]
  | some invoice =>
    simp only [saveItem, hinv]
    by_cases hname : jsTrim form.itemProductName = ""
    · rw [if_pos hname]
    · rw [if_neg hname]
      have hguard : ((jsParseFloat form.itemPrice).isNaN ||
          jsLtB (jsParseFloat form.itemPrice) (JsNum.num 0) ||
          (jsParseFloat form.itemQuantity).isNaN ||
          jsLeB (jsParseFloat form.itemQuantity) (JsNum.num 0)) = true := by
        rcases hrej with h | h | h | h | h
        · exact absurd h hname
        all_goals simp [h]
      rw [if_pos hguard]

/-- Witness for C4 (the spec's own scenario): adding with price `"-5"` is
rejected and the state — in particular the line-item count — is unchanged. -/
theorem claim4_addLineItem_reject_witness :
    saveItem negPriceForm "li1" "pr1" baseState = baseState :=
  claim4_addLineItem_reject baseState negPriceForm "li1" "pr1" rfl
    (Or.inr (Or.inr (Or.inl (by decide))))

/-- **C4 counterexample.** The string `Infinity` parses to a value that is
not a finite number ≥ 0, yet `saveItem` in add mode accepts it: the
line-item count grows from 0 to 1 and the screen transitions to the items
screen — contradicting the claim that such an input is rejected. -/
theorem claim4_counterexample :
    jsParseFloat "Infinity" = JsNum.inf false ∧
    (saveItem infinityForm "li1" "pr1" baseState).invoice.map
        (fun inv => inv.lineItems.length) = some 1 ∧
    (saveItem infinityForm "li1" "pr1" baseState).screen = Screen.items := by
  refine ⟨by decide, ?_, ?_⟩
  · decide
  · decide

/-! ### C8: EditLineItem frame -/

/-- First line item of the edit scenario. -/
def itemA : LineItem := ⟨"a", "Paneer", JsNum.num 500, JsNum.num 1, "kg"⟩

/-- Second line item of the edit scenario (the one being edited). -/
def itemB : LineItem := ⟨"b", "Milk", JsNum.num 50, JsNum.num 1, "liter"⟩

/-- A draft invoice holding `itemA` and `itemB`. -/
def twoItemInvoice : Invoice :=
  ⟨"inv2", "c1", "Cust", none, none, [itemA, itemB], JsNum.num 550, JsNum.num 550, 0, true⟩

/-- The component state of the edit scenario. -/
def editState : AppState :=
  ⟨some twoItemInvoice, Screen.addItem, [], [], some twoItemInvoice⟩

/-- The form editing `itemB` into `Cream, 60 × 2 piece`. -/
def editForm : ItemForm := ⟨some itemB, "Cream", "60", "2", "piece"⟩

/-- Mapping an id-guarded update over a list whose only match is `it`
rewrites `it` alone, in place. -/
theorem map_update_of_unique (f : LineItem → LineItem) (target : String)
    (pre post : List LineItem) (it : LineItem) (hit : it.id = target)
    (hpre : ∀ x ∈ pre, x.id ≠ target) (hpost : ∀ x ∈ post, x.id ≠ target) :
    (pre ++ it :: post).map (fun item => if item.id = target then f item else item) =
      pre ++ f it :: post := by
  induction pre with
  | nil =>
    simp only [List.nil_append, List.map_cons, if_pos hit]
    refine congrArg (f it :: ·) ?_
    calc post.map (fun item => if item.id = target then f item else item)
        = post.map id := List.map_congr_left fun x hx => if_neg (hpost x hx)
      _ = post := List.map_id post
  | cons p ps ih =>
    simp only [List.cons_append, List.map_cons,
      if_neg (hpre p (List.mem_cons_self p ps))]
    exact congrArg (p :: ·) (ih (fun x hx => hpre x (List.mem_cons_of_mem p hx)))

/-- **C8.** With valid inputs, `saveItem` in edit mode replaces exactly the
line item whose id is the edited one — new name/price/quantity/unit
snapshots, same id, same position — recomputes the totals, persists the
invoice, returns to the items screen, and leaves both the loaded product
list and the persisted products store untouched (so no usage counter moves
and no product is created). -/
theorem claim8_editLineItem (st : AppState) (inv : Invoice) (form : ItemForm)
    (editing it : LineItem) (newItemId newProductId : String)
    (pre post : List LineItem)
    (hinv : st.invoice = some inv)
    (hmode : form.editingItem = some editing)
    (hname : jsTrim form.itemProductName ≠ "")
    (hp1 : (jsParseFloat form.itemPrice).isNaN = false)
    (hp2 : jsLtB (jsParseFloat form.itemPrice) (JsNum.num 0) = false)
    (hq1 : (jsParseFloat form.itemQuantity).isNaN = false)
    (hq2 : jsLeB (jsParseFloat form.itemQuantity) (JsNum.num 0) = false)
    (hitems : inv.lineItems = pre ++ it :: post)
    (hid : it.id = editing.id)
    (hpre : ∀ x ∈ pre, x.id ≠ editing.id)
    (hpost : ∀ x ∈ post, x.id ≠ editing.id) :
    (let newItem : LineItem := { it with
        productName := jsTrim form.itemProductName
        unitPrice := jsParseFloat form.itemPrice
        quantity := jsParseFloat form.itemQuantity
        unit := form.itemUnit }
     let updated := pre ++ newItem :: post
     let inv2 : Invoice := { inv with
        lineItems := updated
        subtotal := calculateSubtotal updated
        total := calculateTotal updated }
     saveItem form newItemId newProductId st =
       { st with invoice := some inv2, draftStore := some inv2, screen := Screen.items }) := by
  simp only [saveItem, hinv, hmode]
  rw [if_neg hname, if_neg (by simp [hp1, hp2, hq1, hq2]), hitems,
    map_update_of_unique _ editing.id pre post it hid hpre hpost]

/-- Witness for C8: editing the second of two line items replaces only that
item and leaves the product stores and the other item untouched. -/
theorem claim8_editLineItem_witness :
    (let newItem : LineItem := { itemB with
        productName := jsTrim "Cream"
        unitPrice := jsParseFloat "60"
        quantity := jsParseFloat "2"
        unit := "piece" }
     let updated := [itemA] ++ newItem :: []
     let inv2 : Invoice := { twoItemInvoice with
        lineItems := updated
        subtotal := calculateSubtotal updated
        total := calculateTotal updated }
     saveItem editForm "li9" "pr9" editState =
       { editState with invoice := some inv2, draftStore := some inv2, screen := Screen.items }) :=
  claim8_editLineItem editState twoItemInvoice editForm itemB itemB "li9" "pr9"
    [itemA] [] rfl rfl (by decide) (by decide) (by decide) (by decide) (by decide)
    rfl rfl (by decide) (by decide)
